import Mathlib

/-!
Verification of the MuonTickets ticket lifecycle engine (`muontickets/mt.py`).

The Python module is shallowly embedded below.  Ticket metadata (a YAML
frontmatter dictionary in the source) is modelled as a typed record `Meta`
whose fields are `Option`-valued: `none` models an absent key, and for the
nullable fields `owner` and `branch` the inner `Option` models a present key
holding Python `None`.  A loaded ticket file is a `Stored` value: either a
parse failure (the source stores `{"_parse_error": msg}`) or a path plus a
metadata record.  Python dictionaries used as maps (`id_to_meta`, the WIP
counters) are association lists with in-place-update semantics (`setAssoc`),
matching `d[k] = v`.  Scores are `Int`: every score the source computes is
integral (weights, day counts and the `-1e9` sentinel), so the Python float
arithmetic is exact.  Python string comparison (`<` on `str`) is code-point
lexicographic; it is embedded as the structural `strLt` below so that all
definitions evaluate inside the kernel.  The date library is an external
collaborator of the engine: `date.fromisoformat` together with date
subtraction is abstracted as a parameter `fromiso : String → Option Int`
mapping an ISO date string to its day ordinal, and the current day is the
parameter `todayOrd` (for scores) / `todayStr` (for the `updated` stamps
written by mutations).
-/

namespace MuonTickets

/-- A dynamic YAML scalar value as the schema validator sees it.  The engine
only ever stores strings, numbers, string lists and null in frontmatter
fields, so these four constructors cover `validate_against_schema`. -/
inductive Val where
  | vnull : Val
  | vstr (s : String) : Val
  | vint (n : Int) : Val
  | vlist (xs : List String) : Val
deriving DecidableEq

/-- Typed view of a ticket frontmatter dictionary.  An outer `none` models a
missing key; `owner`/`branch` are nullable-union fields, so their inner
`Option` models an explicit null value. -/
structure Meta where
  id : Option String
  title : Option String
  status : Option String
  priority : Option String
  type : Option String
  effort : Option String
  owner : Option (Option String)
  branch : Option (Option String)
  labels : Option (List String)
  tags : Option (List String)
  depends_on : Option (List String)
  created : Option String
  updated : Option String
  score : Option Int
deriving DecidableEq

/-- A metadata record with every key absent. -/
def emptyMeta : Meta :=
  { id := none, title := none, status := none, priority := none, type := none,
    effort := none, owner := none, branch := none, labels := none, tags := none,
    depends_on := none, created := none, updated := none, score := none }

/-- One loaded ticket file: `load_all_tickets` yields either a parse-error
placeholder (`meta={"_parse_error": msg}`) or a parsed ticket.  `path` is the
file basename, e.g. "T-000001.md".  Ticket bodies are irrelevant to every
operation modelled here and are omitted. -/
inductive Stored where
  | perr (path : String) (msg : String) : Stored
  | ok (path : String) (meta : Meta) : Stored
deriving DecidableEq

/-- Dictionary lookup `meta[k]` / `k in meta`, exposing the typed record to
the generic schema validator exactly as the Python dict would. -/
def Meta.get (m : Meta) (k : String) : Option Val :=
  if k = "id" then m.id.map Val.vstr
  else if k = "title" then m.title.map Val.vstr
  else if k = "status" then m.status.map Val.vstr
  else if k = "priority" then m.priority.map Val.vstr
  else if k = "type" then m.type.map Val.vstr
  else if k = "effort" then m.effort.map Val.vstr
  else if k = "created" then m.created.map Val.vstr
  else if k = "updated" then m.updated.map Val.vstr
  else if k = "owner" then m.owner.map (fun o => match o with
    | none => Val.vnull
    | some s => Val.vstr s)
  else if k = "branch" then m.branch.map (fun o => match o with
    | none => Val.vnull
    | some s => Val.vstr s)
  else if k = "labels" then m.labels.map Val.vlist
  else if k = "tags" then m.tags.map Val.vlist
  else if k = "depends_on" then m.depends_on.map Val.vlist
  else if k = "score" then m.score.map Val.vint
  else none

/-! ### Module-level constant tables (mt.py lines 54-69) -/

def DEFAULT_STATES : List String := ["ready", "claimed", "blocked", "needs_review", "done"]

def DEFAULT_EFFORTS : List String := ["xs", "s", "m", "l"]

/-- Allowed transitions table; Python sets of targets become lists (only
membership is ever used). -/
def ALLOWED_TRANSITIONS : List (String × List String) :=
  [("ready", ["claimed", "blocked"]),
   ("claimed", ["needs_review", "blocked", "ready"]),
   ("blocked", ["ready", "claimed"]),
   ("needs_review", ["done", "claimed"]),
   ("done", [])]

def PRIORITY_WEIGHT : List (String × Int) := [("p0", 300), ("p1", 200), ("p2", 100)]

def EFFORT_WEIGHT : List (String × Int) := [("xs", 40), ("s", 30), ("m", 20), ("l", 10)]

/-! ### Python string primitives

Embedded structurally over `List Char` so that every definition reduces in
the kernel.  Python `str` comparison is lexicographic on code points, which
`listLtB` implements; `Char` comparison in Lean is comparison of code
points, matching Python. -/

/-- Lexicographic strict comparison of character lists (Python `str <`). -/
def listLtB : List Char → List Char → Bool
  | [], [] => false
  | [], _ :: _ => true
  | _ :: _, [] => false
  | a :: as, b :: bs => if a < b then true else if b < a then false else listLtB as bs

/-- Python `s < t` on strings, as a Bool. -/
def strLtB (s t : String) : Bool := listLtB s.data t.data

/-- Python `s < t` on strings, as a Prop. -/
def strLt (s t : String) : Prop := strLtB s t = true

instance (s t : String) : Decidable (strLt s t) :=
  inferInstanceAs (Decidable (strLtB s t = true))

/-- Python `s.strip()`: remove leading and trailing whitespace. -/
def pyStrip (s : String) : String :=
  String.mk (((s.data.dropWhile Char.isWhitespace).reverse.dropWhile Char.isWhitespace).reverse)

/-- Python `s.lower()` (per-character lowering; ASCII suffices for the
slug/branch machinery, which immediately discards anything outside
`[a-z0-9]`). -/
def pyLower (s : String) : String := String.mk (s.data.map Char.toLower)

/-- Python `repr` of a string (single-quoted), used by the `{x!r}` f-string
conversions in the source error messages. -/
def quoteRepr (s : String) : String := "\x27" ++ s ++ "\x27"

/-- Python `str(x)` of an optional string (`None` prints as "None"). -/
def showOptStr : Option String → String
  | none => "None"
  | some s => s

/-- Python `repr` of an optional string. -/
def reprOptStr : Option String → String
  | none => "None"
  | some s => quoteRepr s

/-- Python `repr` of a string list, e.g. `["a"]` prints as a bracketed
comma-separated sequence of quoted strings. -/
def reprStrList (xs : List String) : String :=
  "[" ++ String.intercalate ", " (xs.map quoteRepr) ++ "]"

/-- Python `repr` of a dynamic value. -/
def Val.reprStr : Val → String
  | Val.vnull => "None"
  | Val.vstr s => quoteRepr s
  | Val.vint n => toString n
  | Val.vlist xs => reprStrList xs

/-- Python `repr` of a list of dynamic values. -/
def reprValList (xs : List Val) : String :=
  "[" ++ String.intercalate ", " (xs.map Val.reprStr) ++ "]"

/-! ### Association lists with Python dict update semantics -/

/-- `d[k] = v` on an association list: overwrite in place if the key is
present, append otherwise (Python dicts preserve insertion order). -/
def setAssoc {α β : Type} [DecidableEq α] : List (α × β) → α → β → List (α × β)
  | [], k, v => [(k, v)]
  | (k0, v0) :: rest, k, v =>
      if k0 = k then (k, v) :: rest else (k0, v0) :: setAssoc rest k v

/-! ### normalize_meta (mt.py lines 263-270) -/

/-- `normalize_meta`: `setdefault` for the six defaultable fields. -/
def normalize_meta (m : Meta) : Meta :=
  { m with
    labels := some (m.labels.getD []),
    depends_on := some (m.depends_on.getD []),
    owner := some (m.owner.getD none),
    branch := some (m.branch.getD none),
    effort := some (m.effort.getD "s"),
    tags := some (m.tags.getD []) }

/-! ### validate_transition (mt.py lines 272-279) -/

def unknownOldMsg (old : String) : String := "unknown old status " ++ quoteRepr old

def unknownNewMsg (new : String) : String := "unknown new status " ++ quoteRepr new

def invalidTransitionMsg (old new : String) : String :=
  "invalid transition " ++ quoteRepr old ++ " -> " ++ quoteRepr new

/-- `validate_transition(old_status, new_status)`: `None` means the edge is
legal; otherwise an error description naming the offending state or pair. -/
def validate_transition (old_status new_status : String) : Option String :=
  match List.lookup old_status ALLOWED_TRANSITIONS with
  | none => some (unknownOldMsg old_status)
  | some allowed =>
      if new_status ∈ DEFAULT_STATES then
        if new_status ∈ allowed then none
        else some (invalidTransitionMsg old_status new_status)
      else some (unknownNewMsg new_status)

/-- The transition targets the table allows for a given old status. -/
def allowedFor (old_status : String) : List String :=
  (List.lookup old_status ALLOWED_TRANSITIONS).getD []

/-! ### Declarative schema and validate_against_schema (mt.py lines 223-261)

The concrete `schema.json` file is data loaded at run time; the validator is
generic in it, so the embedding is parameterised by a `Schema` value.  A
regular-expression `pattern` rule is abstracted as a predicate on strings
(the regex engine is library code, not part of the engine). -/

structure OneOfOpt where
  type : String
  minLength : Option Nat
deriving DecidableEq

structure Rule where
  enum : Option (List Val)
  pattern : Option (String → Bool)
  type : Option String
  minLength : Option Nat
  oneOf : Option (List OneOfOpt)

/-- A rule with no constraints, the base for building concrete rules. -/
def emptyRule : Rule :=
  { enum := none, pattern := none, type := none, minLength := none, oneOf := none }

structure Schema where
  required : List String
  properties : List (String × Rule)

/-- Whether value `v` satisfies one `oneOf` alternative (only the `null` and
`string` alternative kinds exist in the source). -/
def oneOfOk (v : Val) (opt : OneOfOpt) : Bool :=
  (opt.type == "null" && v == Val.vnull) ||
  (opt.type == "string" &&
    (match v with
     | Val.vstr s =>
         (match opt.minLength with
          | none => true
          | some ml => ml == 0 || decide (ml ≤ s.length))
     | _ => false))

/-- The violations one property rule contributes for a present value, in the
order the source checks them (enum, pattern, array, string, number, oneOf). -/
def checkRule (k : String) (rule : Rule) (v : Val) : List String :=
  (match rule.enum with
   | some es =>
       if v != Val.vnull && !(es.contains v) then
         ["field " ++ quoteRepr k ++ " must be one of " ++ reprValList es ++ ", got " ++ v.reprStr]
       else []
   | none => []) ++
  (match rule.pattern with
   | some p =>
       (match v with
        | Val.vstr s =>
            if !(p s) then
              ["field " ++ quoteRepr k ++ " does not match pattern, got " ++ v.reprStr]
            else []
        | _ => [])
   | none => []) ++
  (if rule.type == some "array" then
     (match v with
      | Val.vlist _ => []
      | _ => ["field " ++ quoteRepr k ++ " must be an array/list"])
   else []) ++
  (if rule.type == some "string" then
     (match v with
      | Val.vstr s =>
          (match rule.minLength with
           | some ml =>
               if ml != 0 && decide (s.length < ml) then
                 ["field " ++ quoteRepr k ++ " too short (min " ++ toString ml ++ ")"]
               else []
           | none => [])
      | _ => ["field " ++ quoteRepr k ++ " must be a string"])
   else []) ++
  (if rule.type == some "number" then
     (match v with
      | Val.vint _ => []
      | _ => ["field " ++ quoteRepr k ++ " must be a number"])
   else []) ++
  (match rule.oneOf with
   | some opts =>
       if !(opts.any (oneOfOk v)) then
         ["field " ++ quoteRepr k ++ " must satisfy oneOf, got " ++ v.reprStr]
       else []
   | none => [])

/-- `validate_against_schema(meta, schema)`: all violations, required-field
checks first, then per-property rule checks; rule checks are skipped for
absent fields. -/
def validate_against_schema (meta : Meta) (schema : Schema) : List String :=
  (schema.required.flatMap (fun k =>
     if (meta.get k).isNone then ["missing required field " ++ quoteRepr k] else [])) ++
  (schema.properties.flatMap (fun kr =>
     match meta.get kr.1 with
     | none => []
     | some v => checkRule kr.1 kr.2 v))

/-- A schema with no requirements: every record validates. -/
def trivialSchema : Schema := { required := [], properties := [] }

/-! ### deps_satisfied and compute_score (mt.py lines 310-349) -/

/-- `deps_satisfied(meta, id_to_meta)`: a dependency is unmet when it is
absent from the map or its status is not "done".  The map is keyed by
`meta.get("id")`, hence `Option String` keys. -/
def deps_satisfied (meta : Meta) (id_to_meta : List (Option String × Meta)) :
    Bool × List String :=
  let missing := (meta.depends_on.getD []).filter (fun dep =>
    match List.lookup (some dep) id_to_meta with
    | none => true
    | some d => d.status != some "done")
  (missing.isEmpty, missing)

/-- The negative sentinel `-1e9` forced when dependencies are unmet. -/
def SENTINEL : Int := -1000000000

/-- `compute_score(meta, id_to_meta)`.  `fromiso` abstracts
`date.fromisoformat` composed with the day-ordinal; a parse failure is the
`none` case and yields age 0, as the `except` branch does. -/
def compute_score (fromiso : String → Option Int) (todayOrd : Int)
    (meta : Meta) (id_to_meta : List (Option String × Meta)) : Int :=
  let pr := meta.priority.getD "p2"
  let eff := meta.effort.getD "s"
  let deps := meta.depends_on.getD []
  let created := meta.created.getD "1970-01-01"
  let base := (List.lookup pr PRIORITY_WEIGHT).getD 0 + (List.lookup eff EFFORT_WEIGHT).getD 0
  let dep_penalty : Int := 5 * (deps.length : Int)
  let age_days : Int :=
    match fromiso created with
    | some d => todayOrd - d
    | none => 0
  if !(deps_satisfied meta id_to_meta).1 then SENTINEL
  else base + min age_days 365 - dep_penalty

/-- The score formula as the specification states it, for comparison with
`compute_score`: priority weight plus effort weight, minus five per
dependency, plus the age in days clamped to 365. -/
def specScoreFormula (fromiso : String → Option Int) (todayOrd : Int) (meta : Meta) : Int :=
  (List.lookup (meta.priority.getD "p2") PRIORITY_WEIGHT).getD 0 +
  (List.lookup (meta.effort.getD "s") EFFORT_WEIGHT).getD 0 +
  min (match fromiso (meta.created.getD "1970-01-01") with
       | some d => todayOrd - d
       | none => 0) 365 -
  5 * ((meta.depends_on.getD []).length : Int)

/-! ### _default_branch (mt.py lines 473-476) -/

/-- Characters the slug keeps: `[a-z0-9]` after lowering. -/
def isSlugChar (c : Char) : Bool := ('a' ≤ c && c ≤ 'z') || c.isDigit

/-- `re.sub(r"[^a-z0-9]+", "-", s)`: each maximal run of non-slug characters
becomes a single hyphen. -/
def collapseRuns : List Char → List Char
  | [] => []
  | c :: cs =>
      if isSlugChar c then c :: collapseRuns cs
      else
        match collapseRuns cs with
        | '-' :: rest => '-' :: rest
        | rest => '-' :: rest

/-- Python `s.strip("-")`. -/
def stripDashes (l : List Char) : List Char :=
  ((l.dropWhile (fun c => c = '-')).reverse.dropWhile (fun c => c = '-')).reverse

/-- `_default_branch(meta)`: deterministic branch name derived from title
and id. -/
def default_branch (meta : Meta) : String :=
  let slugChars := stripDashes (collapseRuns ((meta.title.getD "").data.map Char.toLower))
  let slug := if slugChars.isEmpty then "task" else String.mk (slugChars.take 40)
  "bug/" ++ pyLower (meta.id.getD "") ++ "-" ++ slug

/-- `ID_RE`: the id format `T-` followed by exactly six digits. -/
def isValidId (s : String) : Bool :=
  match s.data with
  | 'T' :: '-' :: rest => rest.length == 6 && rest.all Char.isDigit
  | _ => false

/-! ### Snapshot-level maps -/

/-- The id map built by `cmd_claim` and `validate_claimable_deps`: every
parse-ok ticket, normalized, keyed by its (possibly absent) id; no schema
filtering. -/
def claimMap (ts : List Stored) : List (Option String × Meta) :=
  ts.foldl (fun acc t =>
    match t with
    | Stored.perr _ _ => acc
    | Stored.ok _ m0 =>
        let m := normalize_meta m0
        setAssoc acc m.id m) []

/-- One step of the map-building loop of `cmd_pick` (mt.py lines 781-789):
parse failures and schema-invalid tickets are skipped (`continue`), valid
tickets are inserted keyed by id. -/
def pickMapStep (schema : Schema) (acc : List (Option String × Meta)) (t : Stored) :
    List (Option String × Meta) :=
  match t with
  | Stored.perr _ _ => acc
  | Stored.ok _ m0 =>
      let m := normalize_meta m0
      if validate_against_schema m schema ≠ [] then acc
      else setAssoc acc m.id m

/-- The id map built by `cmd_pick`: parse-ok tickets that additionally pass
the schema check; schema-invalid tickets are excluded. -/
def pickIdToMeta (schema : Schema) (ts : List Stored) : List (Option String × Meta) :=
  ts.foldl (pickMapStep schema) []

/-- Locate a stored ticket file by path (`read_ticket` on the file the
invocation already snapshotted). -/
def findStored (ts : List Stored) (path : String) : Option Stored :=
  ts.find? (fun t =>
    match t with
    | Stored.perr p _ => p == path
    | Stored.ok p _ => p == path)

/-! ### Board validation (mt.py lines 568-676) -/

/-- Python truthiness of `meta.get("owner")`: false for an absent key, an
explicit null, and the empty string. -/
def ownerTruthy (m : Meta) : Bool :=
  match m.owner with
  | some (some s) => s != ""
  | _ => false

/-- Python truthiness of `meta.get("branch")`. -/
def branchTruthy (m : Meta) : Bool :=
  match m.branch with
  | some (some s) => s != ""
  | _ => false

/-- `meta.get("owner") or ""` as used by the pick WIP counter. -/
def ownerOrEmpty (m : Meta) : String :=
  match m.owner with
  | some (some s) => s
  | _ => ""

/-- The WIP-limit error line for one owner. -/
def wipMsg (owner : String) (c : Nat) (maxc : Int) : String :=
  "owner " ++ quoteRepr owner ++ " has " ++ toString c ++ " claimed tickets (max " ++
    toString maxc ++ ")"

/-- One iteration of the `validate_wip_limit` counting loop:
`counts[owner] = counts.get(owner, 0) + 1` for claimed tickets with a truthy
owner (note: the raw metadata is used, not the normalized form). -/
def wipStep (counts : List (String × Nat)) (t : Stored) : List (String × Nat) :=
  match t with
  | Stored.perr _ _ => counts
  | Stored.ok _ m =>
      if m.status == some "claimed" then
        match m.owner with
        | some (some o) =>
            if o == "" then counts
            else setAssoc counts o ((List.lookup o counts).getD 0 + 1)
        | _ => counts
      else counts

/-- The per-owner claimed-ticket counters of `validate_wip_limit`. -/
def wipCounts (ts : List Stored) : List (String × Nat) := ts.foldl wipStep []

/-- `validate_wip_limit(tickets, max_claimed_per_owner)`. -/
def validate_wip_limit (ts : List Stored) (maxc : Int) : List String :=
  (wipCounts ts).filterMap (fun oc =>
    if maxc < (oc.2 : Int) then some (wipMsg oc.1 oc.2 maxc) else none)

/-- The ids of all parse-ok tickets (the `existing` set of
`validate_depends`; only membership is used, so a list suffices). -/
def existingIds (ts : List Stored) : List (Option String) :=
  ts.filterMap (fun t =>
    match t with
    | Stored.perr _ _ => none
    | Stored.ok _ m0 => some (normalize_meta m0).id)

/-- `validate_depends(tickets)`: referential integrity of `depends_on`. -/
def validate_depends (ts : List Stored) : List String :=
  let existing := existingIds ts
  ts.flatMap (fun t =>
    match t with
    | Stored.perr _ _ => []
    | Stored.ok _ m0 =>
        let m := normalize_meta m0
        (m.depends_on.getD []).filterMap (fun dep =>
          if !(existing.contains (some dep)) then
            some (showOptStr m.id ++ " depends_on missing ticket " ++ dep)
          else none))

/-- `validate_claimable_deps(tickets)`: in-flight tickets should have their
dependencies done. -/
def validate_claimable_deps (ts : List Stored) : List String :=
  let id_to_meta := claimMap ts
  ts.flatMap (fun t =>
    match t with
    | Stored.perr _ _ => []
    | Stored.ok _ m0 =>
        let m := normalize_meta m0
        if m.status == some "claimed" || m.status == some "needs_review" ||
            m.status == some "done" then
          let sat := deps_satisfied m id_to_meta
          if !sat.1 && !(m.depends_on.getD []).isEmpty then
            [showOptStr m.id ++ " status " ++ showOptStr m.status ++ " but deps not done: " ++
              reprStrList sat.2]
          else []
        else [])

/-- The violations `cmd_validate` collects for a single ticket inside its
per-ticket loop (mt.py lines 638-662), each prefixed with the file basename. -/
def perTicketErrors (schema : Schema) (t : Stored) : List String :=
  match t with
  | Stored.perr path msg => [path ++ ": " ++ msg]
  | Stored.ok path m0 =>
      let m := normalize_meta m0
      ((validate_against_schema m schema).map (fun e => path ++ ": " ++ e)) ++
      (if m.status == some "claimed" && !(ownerTruthy m) then
         [path ++ ": claimed ticket must have owner"]
       else []) ++
      (if (m.status == some "needs_review" || m.status == some "done") &&
          !(branchTruthy m) then
         [path ++ ": status " ++ showOptStr m.status ++ " should have branch set"]
       else []) ++
      (match m.created, m.updated with
       | some c, some u =>
           if strLtB u c then
             [path ++ ": updated (" ++ u ++ ") is earlier than created (" ++ c ++ ")"]
           else []
       | _, _ => []) ++
      (if !(DEFAULT_EFFORTS.contains (m.effort.getD "s")) then
         [path ++ ": effort must be one of " ++ reprStrList DEFAULT_EFFORTS ++ ", got " ++
           reprOptStr (some (m.effort.getD "s"))]
       else [])

/-- The full accumulated violation list of `cmd_validate`: the per-ticket
loop results in snapshot order, then the WIP-limit report, the referential
integrity report, and (behind its flag) the in-flight dependency report. -/
def validateErrors (schema : Schema) (max_claimed_per_owner : Int) (enforce_done_deps : Bool)
    (ts : List Stored) : List String :=
  ts.flatMap (perTicketErrors schema) ++
  validate_wip_limit ts max_claimed_per_owner ++
  validate_depends ts ++
  (if enforce_done_deps then validate_claimable_deps ts else [])

/-- `cmd_validate`: the accumulated violation list and the exit code (0 on an
empty list, 1 otherwise). -/
def cmd_validate (schema : Schema) (max_claimed_per_owner : Int) (enforce_done_deps : Bool)
    (ts : List Stored) : List String × Nat :=
  let errors := validateErrors schema max_claimed_per_owner enforce_done_deps ts
  if errors.isEmpty then (errors, 0) else (errors, 1)

/-! ### cmd_claim (mt.py lines 478-504) -/

structure ClaimArgs where
  id : String
  owner : String
  branch : String
  ignore_deps : Bool
  force : Bool

/-- Outcome of `cmd_claim`.  `invalidId`, `notFound` and `readErr` model the
exceptions `find_ticket_by_id`/`read_ticket` raise (the CLI process dies
with a traceback); `refuse` is the reported precondition failure (exit 2);
`claimed` carries the single mutated record written back (exit 0). -/
inductive ClaimResult where
  | invalidId : ClaimResult
  | notFound : ClaimResult
  | readErr (msg : String) : ClaimResult
  | refuse (msg : String) : ClaimResult
  | claimed (path : String) (newMeta : Meta) : ClaimResult
deriving DecidableEq

def ClaimResult.exitCode : ClaimResult → Nat
  | ClaimResult.refuse _ => 2
  | ClaimResult.claimed _ _ => 0
  | _ => 1

def claimStatusMsg (old : Option String) : String :=
  "Refusing to claim: status is " ++ reprOptStr old ++
    " (expected \x27ready\x27). Use --force to override."

def claimDepsMsg (missing : List String) : String :=
  "Refusing to claim: dependencies not done: " ++ reprStrList missing ++
    ". Use --ignore-deps to override."

/-- `cmd_claim(args)` over a snapshot: status gate, dependency gate, then the
mutation. -/
def cmd_claim (today : String) (args : ClaimArgs) (ts : List Stored) : ClaimResult :=
  if !(isValidId args.id) then ClaimResult.invalidId
  else
    match findStored ts (args.id ++ ".md") with
    | none => ClaimResult.notFound
    | some (Stored.perr _ msg) => ClaimResult.readErr msg
    | some (Stored.ok path m0) =>
        let meta := normalize_meta m0
        if meta.status != some "ready" && !args.force then
          ClaimResult.refuse (claimStatusMsg meta.status)
        else
          let id_to_meta := claimMap ts
          let sat := deps_satisfied meta id_to_meta
          if !sat.1 && !args.ignore_deps then
            ClaimResult.refuse (claimDepsMsg sat.2)
          else
            ClaimResult.claimed path
              { meta with
                status := some "claimed",
                owner := some (some args.owner),
                branch := some (some (if args.branch != "" then pyStrip args.branch
                                      else default_branch meta)),
                updated := some today }

/-! ### cmd_pick (mt.py lines 770-855) -/

structure PickArgs where
  owner : String
  label : List String
  avoid_label : List String
  priority : Option String
  type : Option String
  branch : String
  ignore_deps : Bool
  max_claimed_per_owner : Int

/-- One entry of the `candidates` list: `(score, updated, id, path)`. -/
structure Cand where
  score : Int
  updated : String
  id : Option String
  path : String
deriving DecidableEq

/-- The strict comparison underlying `candidates.sort(key=lambda x:
(-x[0], x[1], x[2]))`: higher score first, then smaller `updated`, then
smaller id.  `none` ids (a ticket whose frontmatter has no `id`) are ordered
before strings; Python would raise `TypeError` when a tie forces it to
compare `None` with a string, so theorems about the ordering assume all
candidate ids are present. -/
def optIdLt : Option String → Option String → Prop
  | none, none => False
  | none, some _ => True
  | some _, none => False
  | some s, some t => strLt s t

instance : (a b : Option String) → Decidable (optIdLt a b)
  | none, none => Decidable.isFalse (fun h => h)
  | none, some _ => Decidable.isTrue trivial
  | some _, none => Decidable.isFalse (fun h => h)
  | some s, some t => inferInstanceAs (Decidable (strLt s t))

/-- `a` sorts strictly before `b` in the candidate ordering. -/
def candLt (a b : Cand) : Prop :=
  b.score < a.score ∨
    (a.score = b.score ∧
      (strLt a.updated b.updated ∨ (a.updated = b.updated ∧ optIdLt a.id b.id)))

instance (a b : Cand) : Decidable (candLt a b) :=
  inferInstanceAs (Decidable (b.score < a.score ∨
    (a.score = b.score ∧
      (strLt a.updated b.updated ∨ (a.updated = b.updated ∧ optIdLt a.id b.id)))))

/-- One comparison step of the selection: keep the earlier candidate unless
the new one sorts strictly before it. -/
def pickBetter (best x : Cand) : Cand := if candLt x best then x else best

/-- `candidates.sort(...); candidates[0]`: the head of a stable sort is the
first minimal element, i.e. the left fold keeping the earlier entry on
ties. -/
def selectCand : List Cand → Option Cand
  | [] => none
  | c :: cs => some (cs.foldl pickBetter c)

/-- The candidate-collection loop of `cmd_pick` (mt.py lines 800-827):
parse-ok, status ready, passes the optional filters, and passes the
dependency gate unless `--ignore-deps`.  There is no schema check here. -/
def candidatesOf (fromiso : String → Option Int) (todayOrd : Int) (schema : Schema)
    (args : PickArgs) (ts : List Stored) : List Cand :=
  let id_to_meta := pickIdToMeta schema ts
  ts.filterMap (fun t =>
    match t with
    | Stored.perr _ _ => none
    | Stored.ok path m0 =>
        let meta := normalize_meta m0
        if meta.status != some "ready" then none
        else if (match args.priority with
                 | some p => meta.priority != some p
                 | none => false) then none
        else if (match args.type with
                 | some ty => meta.type != some ty
                 | none => false) then none
        else if !args.label.isEmpty &&
            !(args.label.all (fun l => (meta.labels.getD []).contains l)) then none
        else if !args.avoid_label.isEmpty &&
            (args.avoid_label.any (fun l => (meta.labels.getD []).contains l)) then none
        else if !(deps_satisfied meta id_to_meta).1 && !args.ignore_deps then none
        else some { score := compute_score fromiso todayOrd meta id_to_meta,
                    updated := meta.updated.getD "",
                    id := meta.id,
                    path := path })

/-- The WIP gate counter of `cmd_pick`: claimed tickets of this owner among
the values of the schema-filtered id map. -/
def pickClaimedCount (schema : Schema) (ts : List Stored) (owner : String) : Nat :=
  ((pickIdToMeta schema ts).map Prod.snd).countP (fun m =>
    m.status == some "claimed" && ownerOrEmpty m == owner)

def capacityMsg (owner : String) (c : Nat) (maxc : Int) : String :=
  "owner " ++ quoteRepr owner ++ " already has " ++ toString c ++
    " claimed tickets (max " ++ toString maxc ++ ")."

/-- Outcome of `cmd_pick`: the WIP-capacity refusal (exit 2), the
"no claimable tickets" outcome (exit 3), a successful pick-and-claim with
the mutated record (exit 0), or a crash re-reading the winning file. -/
inductive PickResult where
  | capacity (msg : String) : PickResult
  | noCandidates : PickResult
  | readErr : PickResult
  | picked (tid : Option String) (score : Int) (branch : String) (path : String)
      (newMeta : Meta) : PickResult
deriving DecidableEq

def PickResult.exitCode : PickResult → Nat
  | PickResult.capacity _ => 2
  | PickResult.noCandidates => 3
  | PickResult.readErr => 1
  | PickResult.picked _ _ _ _ _ => 0

/-- The claim phase of `cmd_pick` on the winning candidate: re-read its
file, normalize, and write back the claimed record with the audit score
(mt.py lines 837-848). -/
def pickWinner (todayStr : String) (args : PickArgs) (ts : List Stored) (c : Cand) :
    PickResult :=
  match findStored ts c.path with
  | some (Stored.ok path m0) =>
      let meta := normalize_meta m0
      let branch := if args.branch != "" then pyStrip args.branch
                    else default_branch meta
      PickResult.picked c.id c.score branch path
        { meta with
          status := some "claimed",
          owner := some (some args.owner),
          branch := some (some branch),
          updated := some todayStr,
          score := some c.score }
  | _ => PickResult.readErr

/-- The selection-and-claim phase of `cmd_pick`, reached once the WIP gate
passes: rank the candidates and claim the winner (mt.py lines 800-855). -/
def pickSelect (fromiso : String → Option Int) (todayOrd : Int) (todayStr : String)
    (schema : Schema) (args : PickArgs) (ts : List Stored) : PickResult :=
  match selectCand (candidatesOf fromiso todayOrd schema args ts) with
  | none => PickResult.noCandidates
  | some c => pickWinner todayStr args ts c

/-- `cmd_pick(args)` over a snapshot: build the schema-filtered id map,
enforce the WIP cap, then select and claim. -/
def cmd_pick (fromiso : String → Option Int) (todayOrd : Int) (todayStr : String)
    (schema : Schema) (args : PickArgs) (ts : List Stored) : PickResult :=
  let claimedCount := pickClaimedCount schema ts args.owner
  if args.max_claimed_per_owner ≤ (claimedCount : Int) then
    PickResult.capacity (capacityMsg args.owner claimedCount args.max_claimed_per_owner)
  else
    pickSelect fromiso todayOrd todayStr schema args ts

/-! ## Order lemmas for the candidate comparison -/

theorem listLtB_irrefl (l : List Char) : listLtB l l = false := by
  induction l with
  | nil => rfl
  | cons a as ih => simp [listLtB, lt_irrefl, ih]

theorem listLtB_trans (l : List Char) :
    ∀ m n, listLtB l m = true → listLtB m n = true → listLtB l n = true := by
  induction l with
  | nil =>
      intro m n h1 h2
      cases m with
      | nil => simp [listLtB] at h1
      | cons b bs =>
          cases n with
          | nil => simp [listLtB] at h2
          | cons c cs => simp [listLtB]
  | cons a as ih =>
      intro m n h1 h2
      cases m with
      | nil => simp [listLtB] at h1
      | cons b bs =>
          cases n with
          | nil => simp [listLtB] at h2
          | cons c cs =>
              simp only [listLtB] at h1 h2 ⊢
              by_cases hab : a < b
              · by_cases hbc : b < c
                · rw [if_pos (lt_trans hab hbc)]
                · rw [if_neg hbc] at h2
                  by_cases hcb : c < b
                  · rw [if_pos hcb] at h2
                    cases h2
                  · have hbceq : b = c := le_antisymm (not_lt.mp hcb) (not_lt.mp hbc)
                    subst hbceq
                    rw [if_pos hab]
              · rw [if_neg hab] at h1
                by_cases hba : b < a
                · rw [if_pos hba] at h1
                  cases h1
                · rw [if_neg hba] at h1
                  have habeq : a = b := le_antisymm (not_lt.mp hba) (not_lt.mp hab)
                  subst habeq
                  by_cases hac : a < c
                  · rw [if_pos hac]
                  · rw [if_neg hac] at h2 ⊢
                    by_cases hca : c < a
                    · rw [if_pos hca] at h2
                      cases h2
                    · rw [if_neg hca] at h2 ⊢
                      exact ih bs cs h1 h2

theorem listLtB_trichotomy (l : List Char) :
    ∀ m, l = m ∨ listLtB l m = true ∨ listLtB m l = true := by
  induction l with
  | nil =>
      intro m
      cases m with
      | nil => exact Or.inl rfl
      | cons b bs => exact Or.inr (Or.inl (by simp [listLtB]))
  | cons a as ih =>
      intro m
      cases m with
      | nil => exact Or.inr (Or.inr (by simp [listLtB]))
      | cons b bs =>
          rcases lt_trichotomy a b with hab | hab | hab
          · exact Or.inr (Or.inl (by simp [listLtB, hab]))
          · subst hab
            rcases ih bs with h | h | h
            · exact Or.inl (by rw [h])
            · exact Or.inr (Or.inl (by simp [listLtB, lt_irrefl, h]))
            · exact Or.inr (Or.inr (by simp [listLtB, lt_irrefl, h]))
          · exact Or.inr (Or.inr (by simp [listLtB, hab, not_lt.mpr (le_of_lt hab)]))

theorem strExt {s t : String} (h : s.data = t.data) : s = t := congrArg String.mk h

theorem strLt_irrefl (s : String) : ¬ strLt s s := by
  simp [strLt, strLtB, listLtB_irrefl]

theorem strLt_trans {s t u : String} (h1 : strLt s t) (h2 : strLt t u) : strLt s u :=
  listLtB_trans s.data t.data u.data h1 h2

theorem strLt_trichotomy (s t : String) : s = t ∨ strLt s t ∨ strLt t s := by
  rcases listLtB_trichotomy s.data t.data with h | h | h
  · exact Or.inl (strExt h)
  · exact Or.inr (Or.inl h)
  · exact Or.inr (Or.inr h)

theorem optIdLt_irrefl (a : Option String) : ¬ optIdLt a a := by
  cases a with
  | none => exact fun h => h
  | some s => exact strLt_irrefl s

theorem optIdLt_trans {a b c : Option String} (h1 : optIdLt a b) (h2 : optIdLt b c) :
    optIdLt a c := by
  cases a <;> cases b <;> cases c <;> simp [optIdLt] at *
  exact strLt_trans h1 h2

theorem optIdLt_trichotomy (a b : Option String) : a = b ∨ optIdLt a b ∨ optIdLt b a := by
  cases a with
  | none =>
      cases b with
      | none => exact Or.inl rfl
      | some t => exact Or.inr (Or.inl trivial)
  | some s =>
      cases b with
      | none => exact Or.inr (Or.inr trivial)
      | some t =>
          rcases strLt_trichotomy s t with h | h | h
          · exact Or.inl (by rw [h])
          · exact Or.inr (Or.inl h)
          · exact Or.inr (Or.inr h)

theorem candLt_irrefl (a : Cand) : ¬ candLt a a := by
  intro h
  rcases h with h | ⟨_, h | ⟨_, h⟩⟩
  · exact lt_irrefl _ h
  · exact strLt_irrefl _ h
  · exact optIdLt_irrefl _ h

theorem candLt_trans {a b c : Cand} (h1 : candLt a b) (h2 : candLt b c) : candLt a c := by
  rcases h1 with h1 | ⟨e1, h1⟩
  · rcases h2 with h2 | ⟨e2, h2⟩
    · exact Or.inl (lt_trans h2 h1)
    · exact Or.inl (e2 ▸ h1)
  · rcases h2 with h2 | ⟨e2, h2⟩
    · exact Or.inl (by rw [e1]; exact h2)
    · refine Or.inr ⟨e1.trans e2, ?_⟩
      rcases h1 with h1 | ⟨u1, h1⟩
      · rcases h2 with h2 | ⟨u2, h2⟩
        · exact Or.inl (strLt_trans h1 h2)
        · exact Or.inl (u2 ▸ h1)
      · rcases h2 with h2 | ⟨u2, h2⟩
        · exact Or.inl (u1 ▸ h2)
        · exact Or.inr ⟨u1.trans u2, optIdLt_trans h1 h2⟩

theorem candLt_asymm {a b : Cand} (h1 : candLt a b) (h2 : candLt b a) : False :=
  candLt_irrefl a (candLt_trans h1 h2)

/-- Key trichotomy: two candidates agree on the whole sort key or one sorts
strictly before the other. -/
theorem candLt_trichotomy (a b : Cand) :
    (a.score = b.score ∧ a.updated = b.updated ∧ a.id = b.id) ∨ candLt a b ∨ candLt b a := by
  rcases lt_trichotomy b.score a.score with hs | hs | hs
  · exact Or.inr (Or.inl (Or.inl hs))
  · rcases strLt_trichotomy a.updated b.updated with hu | hu | hu
    · rcases optIdLt_trichotomy a.id b.id with hi | hi | hi
      · exact Or.inl ⟨hs.symm, hu, hi⟩
      · exact Or.inr (Or.inl (Or.inr ⟨hs.symm, Or.inr ⟨hu, hi⟩⟩))
      · exact Or.inr (Or.inr (Or.inr ⟨hs, Or.inr ⟨hu.symm, hi⟩⟩))
    · exact Or.inr (Or.inl (Or.inr ⟨hs.symm, Or.inl hu⟩))
    · exact Or.inr (Or.inr (Or.inr ⟨hs, Or.inl hu⟩))
  · exact Or.inr (Or.inr (Or.inl hs))

/-- Strict-weak-order condition: a strict comparison passes through any
middle element. -/
theorem candLt_strongTrans {a c : Cand} (h : candLt a c) (b : Cand) :
    candLt a b ∨ candLt b c := by
  rcases candLt_trichotomy a b with ⟨e1, e2, e3⟩ | hab | hba
  · right
    rcases h with h | ⟨f1, hrest⟩
    · exact Or.inl (e1 ▸ h)
    · refine Or.inr ⟨e1 ▸ f1, ?_⟩
      rcases hrest with h | ⟨g1, h⟩
      · exact Or.inl (e2 ▸ h)
      · exact Or.inr ⟨e2 ▸ g1, e3 ▸ h⟩
  · exact Or.inl hab
  · exact Or.inr (candLt_trans hba h)

theorem foldl_pickBetter_mem (cs : List Cand) (b : Cand) :
    cs.foldl pickBetter b = b ∨ cs.foldl pickBetter b ∈ cs := by
  induction cs generalizing b with
  | nil => exact Or.inl rfl
  | cons x xs ih =>
      rw [List.foldl_cons]
      rcases ih (pickBetter b x) with h | h
      · rw [h]
        unfold pickBetter
        split
        · exact Or.inr (List.mem_cons_self _ _)
        · exact Or.inl rfl
      · exact Or.inr (List.mem_cons_of_mem _ h)

theorem foldl_pickBetter_min (cs : List Cand) (b : Cand) :
    ¬ candLt b (cs.foldl pickBetter b) ∧ ∀ x ∈ cs, ¬ candLt x (cs.foldl pickBetter b) := by
  induction cs generalizing b with
  | nil => exact ⟨candLt_irrefl b, by simp⟩
  | cons x xs ih =>
      rw [List.foldl_cons]
      by_cases hlt : candLt x b
      · have hb' : pickBetter b x = x := if_pos hlt
        rw [hb']
        have ihb := ih x
        refine ⟨?_, ?_⟩
        · intro hbr
          rcases candLt_strongTrans hbr x with h | h
          · exact candLt_asymm hlt h
          · exact ihb.1 h
        · intro y hy
          rcases List.mem_cons.mp hy with rfl | hy'
          · exact ihb.1
          · exact ihb.2 y hy'
      · have hb' : pickBetter b x = b := if_neg hlt
        rw [hb']
        have ihb := ih b
        refine ⟨ihb.1, ?_⟩
        intro y hy
        rcases List.mem_cons.mp hy with rfl | hy'
        · intro hxr
          rcases candLt_strongTrans hxr b with h | h
          · exact hlt h
          · exact ihb.1 h
        · exact ihb.2 y hy'

/-- The selected candidate is a member of the list and no list element sorts
strictly before it. -/
theorem selectCand_spec {l : List Cand} {c : Cand} (h : selectCand l = some c) :
    c ∈ l ∧ ∀ x ∈ l, ¬ candLt x c := by
  cases l with
  | nil => cases h
  | cons c0 cs =>
      have hc : cs.foldl pickBetter c0 = c := Option.some.inj h
      constructor
      · rcases foldl_pickBetter_mem cs c0 with h' | h'
        · rw [← hc, h']; exact List.mem_cons_self _ _
        · rw [← hc]; exact List.mem_cons_of_mem _ h'
      · intro x hx
        have hmin := foldl_pickBetter_min cs c0
        rcases List.mem_cons.mp hx with rfl | hx'
        · rw [← hc]; exact hmin.1
        · rw [← hc]; exact hmin.2 x hx'

/-! ## Association list lemmas -/

theorem beq_true_of_eq {α : Type} [DecidableEq α] {a b : α} (h : a = b) : (a == b) = true :=
  beq_iff_eq.mpr h

theorem beq_false_of_ne {α : Type} [DecidableEq α] {a b : α} (h : a ≠ b) : (a == b) = false :=
  beq_eq_false_iff_ne.mpr h

theorem lookup_setAssoc {α β : Type} [DecidableEq α] (m : List (α × β)) (k : α) (v : β)
    (k' : α) :
    List.lookup k' (setAssoc m k v) = if k' = k then some v else List.lookup k' m := by
  induction m with
  | nil =>
      by_cases h : k' = k
      · simp [setAssoc, List.lookup, beq_true_of_eq h, h]
      · simp [setAssoc, List.lookup, beq_false_of_ne h, h]
  | cons p rest ih =>
      obtain ⟨k0, v0⟩ := p
      by_cases h0 : k0 = k
      · subst h0
        by_cases h' : k' = k0
        · simp [setAssoc, List.lookup, beq_true_of_eq h', h']
        · simp [setAssoc, List.lookup, beq_false_of_ne h', h']
      · simp only [setAssoc, if_neg h0]
        by_cases h' : k' = k0
        · subst h'
          have hne : k' ≠ k := fun hk => h0 hk
          simp [List.lookup, beq_true_of_eq rfl, if_neg hne]
        · simp [List.lookup, beq_false_of_ne h', ih]

theorem mem_setAssoc {α β : Type} [DecidableEq α] {m : List (α × β)} {k k' : α} {v v' : β}
    (h : (k', v') ∈ setAssoc m k v) : (k', v') ∈ m ∨ (k' = k ∧ v' = v) := by
  induction m with
  | nil =>
      simp [setAssoc] at h
      exact Or.inr ⟨h.1, h.2⟩
  | cons p rest ih =>
      obtain ⟨k0, v0⟩ := p
      simp only [setAssoc] at h
      split at h
      · rcases List.mem_cons.mp h with heq | hm
        · exact Or.inr ⟨congrArg Prod.fst heq, congrArg Prod.snd heq⟩
        · exact Or.inl (List.mem_cons_of_mem _ hm)
      · rcases List.mem_cons.mp h with heq | hm
        · exact Or.inl (List.mem_cons.mpr (Or.inl heq))
        · rcases ih hm with h' | h'
          · exact Or.inl (List.mem_cons_of_mem _ h')
          · exact Or.inr h'

theorem mem_of_lookup {α β : Type} [DecidableEq α] {m : List (α × β)} {k : α} {v : β}
    (h : List.lookup k m = some v) : (k, v) ∈ m := by
  induction m with
  | nil => cases h
  | cons p rest ih =>
      obtain ⟨k0, v0⟩ := p
      by_cases h0 : k = k0
      · subst h0
        simp only [List.lookup, beq_true_of_eq rfl] at h
        obtain rfl := Option.some.inj h
        exact List.mem_cons_self _ _
      · simp only [List.lookup, beq_false_of_ne h0] at h
        exact List.mem_cons_of_mem _ (ih h)

theorem keys_setAssoc {α β : Type} [DecidableEq α] (m : List (α × β)) (k : α) (v : β)
    (k' : α) :
    k' ∈ (setAssoc m k v).map Prod.fst ↔ k' ∈ m.map Prod.fst ∨ k' = k := by
  induction m with
  | nil => simp [setAssoc]
  | cons p rest ih =>
      obtain ⟨k0, v0⟩ := p
      by_cases h0 : k0 = k
      · subst h0
        have hs : setAssoc ((k0, v0) :: rest) k0 v = (k0, v) :: rest := by
          simp [setAssoc]
        rw [hs]
        simp only [List.map_cons, List.mem_cons]
        tauto
      · have hs : setAssoc ((k0, v0) :: rest) k v = (k0, v0) :: setAssoc rest k v := by
          simp only [setAssoc, if_neg h0]
        rw [hs]
        simp only [List.map_cons, List.mem_cons, ih]
        tauto

theorem nodup_keys_setAssoc {α β : Type} [DecidableEq α] {m : List (α × β)} (k : α) (v : β)
    (h : (m.map Prod.fst).Nodup) : ((setAssoc m k v).map Prod.fst).Nodup := by
  induction m with
  | nil => simp [setAssoc]
  | cons p rest ih =>
      obtain ⟨k0, v0⟩ := p
      simp only [List.map_cons, List.nodup_cons] at h
      by_cases h0 : k0 = k
      · subst h0
        simpa [setAssoc] using h
      · simp only [setAssoc, if_neg h0, List.map_cons, List.nodup_cons]
        refine ⟨?_, ih h.2⟩
        intro hmem
        rcases (keys_setAssoc rest k v k0).mp hmem with h' | h'
        · exact h.1 h'
        · exact h0 h'

theorem lookup_of_mem_nodup {α β : Type} [DecidableEq α] {m : List (α × β)} {k : α} {v : β}
    (hnd : (m.map Prod.fst).Nodup) (h : (k, v) ∈ m) : List.lookup k m = some v := by
  induction m with
  | nil => cases h
  | cons p rest ih =>
      obtain ⟨k0, v0⟩ := p
      simp only [List.map_cons, List.nodup_cons] at hnd
      rcases List.mem_cons.mp h with heq | hm
      · obtain ⟨h1, h2⟩ := Prod.mk.injEq .. ▸ heq
        subst h1; subst h2
        simp [List.lookup]
      · have hk : k ≠ k0 := by
          rintro rfl
          exact hnd.1 (List.mem_map.mpr ⟨(k, v), hm, rfl⟩)
        simp only [List.lookup, beq_false_of_ne hk]
        exact ih hnd.2 hm

/-! ## WIP counter lemmas -/

/-- Whether one stored ticket contributes to owner `o`'s claimed count: it
parsed, its status is "claimed", and its owner is the non-empty string `o`.
This is the counting rule the specification states for the WIP limit. -/
def wipPred (o : String) (t : Stored) : Bool :=
  match t with
  | Stored.perr _ _ => false
  | Stored.ok _ m =>
      m.status == some "claimed" &&
        (match m.owner with
         | some (some s) => s == o && s != ""
         | _ => false)

/-- Owner `o`'s claimed-ticket count over a snapshot, per the specification
reading (claimed tickets with a non-null, non-empty owner equal to `o`). -/
def specWipCount (ts : List Stored) (o : String) : Nat := ts.countP (wipPred o)

theorem lookup_wipStep_of_false {acc : List (String × Nat)} {t : Stored} {o : String}
    (h : wipPred o t = false) : List.lookup o (wipStep acc t) = List.lookup o acc := by
  cases t with
  | perr _ _ => rfl
  | ok path m =>
      simp only [wipPred] at h
      simp only [wipStep]
      cases hst : (m.status == some "claimed") with
      | false => simp [hst]
      | true =>
          rw [hst] at h
          simp only [Bool.true_and] at h
          rw [if_pos rfl]
          match howner : m.owner with
          | none => simp
          | some none => simp
          | some (some s) =>
              rw [howner] at h
              by_cases hse : s = ""
              · simp [beq_true_of_eq hse]
              · simp only [beq_false_of_ne hse, bne, Bool.not_false, Bool.and_true] at h
                have hso : s ≠ o := by
                  intro heq
                  rw [beq_true_of_eq heq] at h
                  cases h
                simp only [beq_false_of_ne hse, Bool.false_eq_true, if_false]
                rw [lookup_setAssoc, if_neg (fun heq => hso heq.symm)]

theorem wipStep_of_true {acc : List (String × Nat)} {t : Stored} {o : String}
    (h : wipPred o t = true) :
    wipStep acc t = setAssoc acc o ((List.lookup o acc).getD 0 + 1) := by
  cases t with
  | perr _ _ => simp [wipPred] at h
  | ok path m =>
      simp only [wipPred] at h
      simp only [wipStep]
      cases hst : (m.status == some "claimed") with
      | false => rw [hst] at h; cases h
      | true =>
          rw [hst] at h
          simp only [Bool.true_and] at h
          rw [if_pos rfl]
          match howner : m.owner with
          | none => rw [howner] at h; cases h
          | some none => rw [howner] at h; cases h
          | some (some s) =>
              rw [howner] at h
              replace h : (s == o && s != "") = true := h
              have h' : s = o ∧ s ≠ "" := by simpa using h
              obtain ⟨hso, hse⟩ := h'
              subst hso
              simp only [beq_false_of_ne hse, Bool.false_eq_true, if_false]

theorem lookup_foldl_wipStep (ts : List Stored) (o : String) :
    ∀ acc : List (String × Nat),
      List.lookup o (ts.foldl wipStep acc) =
        if specWipCount ts o = 0 then List.lookup o acc
        else some ((List.lookup o acc).getD 0 + specWipCount ts o) := by
  induction ts with
  | nil => intro acc; simp [specWipCount]
  | cons t ts ih =>
      intro acc
      rw [List.foldl_cons]
      cases hp : wipPred o t with
      | false =>
          have hcnt : specWipCount (t :: ts) o = specWipCount ts o := by
            simp [specWipCount, List.countP_cons, hp]
          rw [ih (wipStep acc t), lookup_wipStep_of_false hp, hcnt]
      | true =>
          have hcnt : specWipCount (t :: ts) o = specWipCount ts o + 1 := by
            simp [specWipCount, List.countP_cons, hp]
          rw [ih (wipStep acc t), wipStep_of_true hp, hcnt]
          have hl : List.lookup o (setAssoc acc o ((List.lookup o acc).getD 0 + 1)) =
              some ((List.lookup o acc).getD 0 + 1) := by
            rw [lookup_setAssoc, if_pos rfl]
          rw [hl]
          by_cases hz : specWipCount ts o = 0
          · simp [hz]
          · rw [if_neg hz, if_neg (by omega)]
            simp only [Option.getD_some, Option.some.injEq]
            omega

theorem lookup_wipCounts (ts : List Stored) (o : String) :
    List.lookup o (wipCounts ts) =
      if specWipCount ts o = 0 then none else some (specWipCount ts o) := by
  have h := lookup_foldl_wipStep ts o []
  simp only [List.lookup] at h
  simpa [wipCounts] using h

theorem nodup_keys_wipStep {acc : List (String × Nat)} (t : Stored)
    (h : (acc.map Prod.fst).Nodup) : ((wipStep acc t).map Prod.fst).Nodup := by
  cases t with
  | perr _ _ => exact h
  | ok path m =>
      simp only [wipStep]
      cases hst : (m.status == some "claimed") with
      | false => simpa using h
      | true =>
          rw [if_pos rfl]
          match m.owner with
          | none => exact h
          | some none => exact h
          | some (some s) =>
              by_cases hse : s = ""
              · simpa [beq_true_of_eq hse] using h
              · simp only [beq_false_of_ne hse, Bool.false_eq_true, if_false]
                exact nodup_keys_setAssoc _ _ h

theorem nodup_keys_wipCounts (ts : List Stored) : ((wipCounts ts).map Prod.fst).Nodup := by
  have aux : ∀ acc : List (String × Nat), (acc.map Prod.fst).Nodup →
      ((ts.foldl wipStep acc).map Prod.fst).Nodup := by
    induction ts with
    | nil => intro acc h; exact h
    | cons t ts ih =>
        intro acc h
        rw [List.foldl_cons]
        exact ih _ (nodup_keys_wipStep t h)
  exact aux [] (by simp)

/-! ## Dependency and map lemmas -/

theorem deps_unsat_of_mem {meta : Meta} {id_to_meta : List (Option String × Meta)}
    {dep : String} {d : Meta}
    (h1 : dep ∈ meta.depends_on.getD []) (h2 : List.lookup (some dep) id_to_meta = some d)
    (h3 : d.status ≠ some "done") :
    (deps_satisfied meta id_to_meta).1 = false ∧ dep ∈ (deps_satisfied meta id_to_meta).2 := by
  have hpred : (match List.lookup (some dep) id_to_meta with
      | none => true
      | some d => d.status != some "done") = true := by
    rw [h2]
    simpa [bne] using h3
  have hm : dep ∈ (deps_satisfied meta id_to_meta).2 :=
    List.mem_filter.mpr ⟨h1, hpred⟩
  refine ⟨?_, hm⟩
  cases hie : (deps_satisfied meta id_to_meta).1 with
  | false => rfl
  | true =>
      have : (deps_satisfied meta id_to_meta).2 = [] := by
        have := List.isEmpty_iff.mp hie
        exact this
      rw [this] at hm
      cases hm

theorem mem_pickIdToMeta {schema : Schema} {ts : List Stored} {k : Option String} {m : Meta}
    (h : (k, m) ∈ pickIdToMeta schema ts) :
    validate_against_schema m schema = [] ∧
      ∃ path m0, Stored.ok path m0 ∈ ts ∧ m = normalize_meta m0 ∧
        k = (normalize_meta m0).id := by
  have aux : ∀ ts : List Stored, ∀ acc, (k, m) ∈ ts.foldl (pickMapStep schema) acc →
      (k, m) ∈ acc ∨ (validate_against_schema m schema = [] ∧
        ∃ path m0, Stored.ok path m0 ∈ ts ∧ m = normalize_meta m0 ∧
          k = (normalize_meta m0).id) := by
    intro ts
    induction ts with
    | nil => intro acc h'; exact Or.inl h'
    | cons t ts ih =>
        intro acc h'
        rw [List.foldl_cons] at h'
        rcases ih _ h' with hacc | ⟨hv, path, m0, hmem, hm, hk⟩
        · cases t with
          | perr p msg => exact Or.inl hacc
          | ok p m0 =>
              simp only [pickMapStep] at hacc
              split at hacc
              · exact Or.inl hacc
              · rcases mem_setAssoc hacc with hacc' | ⟨hk, hv⟩
                · exact Or.inl hacc'
                · subst hv
                  refine Or.inr ⟨by simpa using (not_not.mp (by assumption)), p, m0,
                    List.mem_cons_self _ _, rfl, hk⟩
        · exact Or.inr ⟨hv, path, m0, List.mem_cons_of_mem _ hmem, hm, hk⟩
  rcases aux ts [] h with h' | h'
  · cases h'
  · exact h'

theorem sublist_flatMap_of_mem {α β : Type} (l : List α) (f : α → List β) (a : α)
    (h : a ∈ l) : (f a).Sublist (l.flatMap f) := by
  induction l with
  | nil => cases h
  | cons x xs ih =>
      rw [List.flatMap_cons]
      rcases List.mem_cons.mp h with rfl | h2
      · exact List.sublist_append_left _ _
      · exact (ih h2).trans (List.sublist_append_right _ _)

theorem cmd_validate_fst (schema : Schema) (maxc : Int) (enf : Bool) (ts : List Stored) :
    (cmd_validate schema maxc enf ts).1 = validateErrors schema maxc enf ts := by
  show (if (validateErrors schema maxc enf ts).isEmpty = true
      then (validateErrors schema maxc enf ts, 0)
      else (validateErrors schema maxc enf ts, 1)).1 = validateErrors schema maxc enf ts
  split <;> rfl

theorem cmd_validate_snd (schema : Schema) (maxc : Int) (enf : Bool) (ts : List Stored) :
    (cmd_validate schema maxc enf ts).2 =
      if validateErrors schema maxc enf ts = [] then 0 else 1 := by
  show (if (validateErrors schema maxc enf ts).isEmpty = true
      then (validateErrors schema maxc enf ts, 0)
      else (validateErrors schema maxc enf ts, 1)).2 =
      if validateErrors schema maxc enf ts = [] then 0 else 1
  by_cases he : validateErrors schema maxc enf ts = []
  · rw [if_pos he, he]
    rfl
  · rw [if_neg he]
    have hie : (validateErrors schema maxc enf ts).isEmpty = false := by
      cases hx : (validateErrors schema maxc enf ts).isEmpty
      · rfl
      · exact absurd (List.isEmpty_iff.mp hx) he
    rw [hie]
    rfl

theorem lookup_transitions_of_not_mem {old : String} (h0 : old ∉ DEFAULT_STATES) :
    List.lookup old ALLOWED_TRANSITIONS = none := by
  simp only [DEFAULT_STATES, List.mem_cons, List.not_mem_nil, or_false, not_or] at h0
  obtain ⟨h1, h2, h3, h4, h5⟩ := h0
  simp [ALLOWED_TRANSITIONS, List.lookup, beq_false_of_ne h1, beq_false_of_ne h2,
    beq_false_of_ne h3, beq_false_of_ne h4, beq_false_of_ne h5]

theorem lookup_transitions_of_mem {old : String} (h0 : old ∈ DEFAULT_STATES) :
    List.lookup old ALLOWED_TRANSITIONS = some (allowedFor old) := by
  simp only [DEFAULT_STATES, List.mem_cons, List.not_mem_nil, or_false] at h0
  rcases h0 with rfl | rfl | rfl | rfl | rfl <;> rfl

/-! ## Claim theorems -/

/-- C5: for every normalized ticket whose dependencies are all satisfied in
the given id-to-metadata map, `compute_score` returns priority weight
(p0=300, p1=200, p2=100) plus effort weight (xs=40, s=30, m=20, l=10) minus
5 times the number of entries in `depends_on`, plus the number of days since
the created date clamped to a maximum of 365 (the formula `specScoreFormula`
stated from the specification, over the same weight tables); whenever the
dependencies are not satisfied, `compute_score` returns the sentinel
-1000000000 (`-1e9`). -/
theorem c5_compute_score_formula (fromiso : String → Option Int) (todayOrd : Int)
    (m0 : Meta) (id_to_meta : List (Option String × Meta)) :
    ((deps_satisfied (normalize_meta m0) id_to_meta).1 = true →
      compute_score fromiso todayOrd (normalize_meta m0) id_to_meta =
        specScoreFormula fromiso todayOrd (normalize_meta m0)) ∧
    ((deps_satisfied (normalize_meta m0) id_to_meta).1 = false →
      compute_score fromiso todayOrd (normalize_meta m0) id_to_meta = -1000000000) := by
  constructor <;> intro h <;> simp [compute_score, specScoreFormula, SENTINEL, h]

/-- Witness for C5 at a concrete normalized ticket with satisfied (empty)
dependencies, and a concrete unsatisfied one hitting the sentinel. -/
theorem c5_compute_score_formula_witness :
    ((deps_satisfied (normalize_meta emptyMeta) []).1 = true ∧
      compute_score (fun _ => none) 0 (normalize_meta emptyMeta) [] =
        specScoreFormula (fun _ => none) 0 (normalize_meta emptyMeta)) ∧
    ((deps_satisfied (normalize_meta { emptyMeta with depends_on := some ["T-000009"] }) []).1
        = false ∧
      compute_score (fun _ => none) 0
        (normalize_meta { emptyMeta with depends_on := some ["T-000009"] }) [] =
        -1000000000) :=
  ⟨⟨by decide, (c5_compute_score_formula (fun _ => none) 0 emptyMeta []).1 (by decide)⟩,
   ⟨by decide,
    (c5_compute_score_formula (fun _ => none) 0
      { emptyMeta with depends_on := some ["T-000009"] } []).2 (by decide)⟩⟩

/-- C6: for every pair of status strings, `validate_transition` returns no
error iff both statuses are recognized states and the new status is in the
allowed-edges table for the old one; every returned error message is the
message naming the offending state or pair. -/
theorem c6_validate_transition_iff (old_status new_status : String) :
    (validate_transition old_status new_status = none ↔
      old_status ∈ DEFAULT_STATES ∧ new_status ∈ DEFAULT_STATES ∧
        new_status ∈ allowedFor old_status) ∧
    (∀ msg, validate_transition old_status new_status = some msg →
      msg = unknownOldMsg old_status ∨ msg = unknownNewMsg new_status ∨
        msg = invalidTransitionMsg old_status new_status) := by
  by_cases h0 : old_status ∈ DEFAULT_STATES
  · have hlk := lookup_transitions_of_mem h0
    have hred : validate_transition old_status new_status =
        if new_status ∈ DEFAULT_STATES then
          (if new_status ∈ allowedFor old_status then none
           else some (invalidTransitionMsg old_status new_status))
        else some (unknownNewMsg new_status) := by
      unfold validate_transition
      rw [hlk]
    rw [hred]
    constructor
    · by_cases hn : new_status ∈ DEFAULT_STATES
      · rw [if_pos hn]
        by_cases ha : new_status ∈ allowedFor old_status
        · rw [if_pos ha]
          simp [h0, hn, ha]
        · rw [if_neg ha]
          simp [ha]
      · rw [if_neg hn]
        simp [hn]
    · intro msg hmsg
      by_cases hn : new_status ∈ DEFAULT_STATES
      · rw [if_pos hn] at hmsg
        by_cases ha : new_status ∈ allowedFor old_status
        · rw [if_pos ha] at hmsg
          cases hmsg
        · rw [if_neg ha] at hmsg
          exact Or.inr (Or.inr (Option.some.inj hmsg).symm)
      · rw [if_neg hn] at hmsg
        exact Or.inr (Or.inl (Option.some.inj hmsg).symm)
  · have hlk := lookup_transitions_of_not_mem h0
    have hred : validate_transition old_status new_status =
        some (unknownOldMsg old_status) := by
      unfold validate_transition
      rw [hlk]
    rw [hred]
    constructor
    · simp [h0]
    · intro msg hmsg
      exact Or.inl (Option.some.inj hmsg).symm

/-- Witness for C6: the legal edge ready to claimed validates, obtained from
the characterization at a concrete pair; and the terminal state done has no
outgoing edge, with the error naming the pair. -/
theorem c6_validate_transition_iff_witness :
    validate_transition "ready" "claimed" = none ∧
    (validate_transition "done" "ready" = some (invalidTransitionMsg "done" "ready") →
      invalidTransitionMsg "done" "ready" = unknownOldMsg "done" ∨
      invalidTransitionMsg "done" "ready" = unknownNewMsg "ready" ∨
      invalidTransitionMsg "done" "ready" = invalidTransitionMsg "done" "ready") :=
  ⟨(c6_validate_transition_iff "ready" "claimed").1.mpr (by decide),
   (c6_validate_transition_iff "done" "ready").2 (invalidTransitionMsg "done" "ready")⟩

/-- C7: normalization is idempotent, where `normalize_meta` defaults missing
`labels`, `depends_on` and `tags` to empty sequences, missing `owner` and
`branch` to null, and missing `effort` to "s". -/
theorem c7_normalize_meta_idempotent (m : Meta) :
    normalize_meta (normalize_meta m) = normalize_meta m ∧
    (m.labels = none → (normalize_meta m).labels = some []) ∧
    (m.depends_on = none → (normalize_meta m).depends_on = some []) ∧
    (m.tags = none → (normalize_meta m).tags = some []) ∧
    (m.owner = none → (normalize_meta m).owner = some none) ∧
    (m.branch = none → (normalize_meta m).branch = some none) ∧
    (m.effort = none → (normalize_meta m).effort = some "s") := by
  refine ⟨rfl, ?_, ?_, ?_, ?_, ?_, ?_⟩ <;> intro h <;> simp [normalize_meta, h]

/-- Witness for C7 at the all-absent record. -/
theorem c7_normalize_meta_idempotent_witness :
    normalize_meta (normalize_meta emptyMeta) = normalize_meta emptyMeta ∧
    (normalize_meta emptyMeta).labels = some [] ∧
    (normalize_meta emptyMeta).owner = some none ∧
    (normalize_meta emptyMeta).effort = some "s" :=
  ⟨(c7_normalize_meta_idempotent emptyMeta).1,
   (c7_normalize_meta_idempotent emptyMeta).2.1 rfl,
   (c7_normalize_meta_idempotent emptyMeta).2.2.2.2.1 rfl,
   (c7_normalize_meta_idempotent emptyMeta).2.2.2.2.2.2 rfl⟩

/-- C8: `cmd_validate` collects every violation of every ticket into one
list and never stops at the first error: each ticket's violations (a parse
failure included) form a sublist of the final report whichever other tickets
precede or follow it, and the exit code is 0 iff the accumulated list is
empty and 1 otherwise. -/
theorem c8_cmd_validate_collects (schema : Schema) (maxc : Int) (enf : Bool)
    (ts : List Stored) :
    ((cmd_validate schema maxc enf ts).2 = 0 ↔ (cmd_validate schema maxc enf ts).1 = []) ∧
    ((cmd_validate schema maxc enf ts).2 = 1 ↔ (cmd_validate schema maxc enf ts).1 ≠ []) ∧
    (∀ t ∈ ts, (perTicketErrors schema t).Sublist (cmd_validate schema maxc enf ts).1) := by
  rw [cmd_validate_fst, cmd_validate_snd]
  refine ⟨?_, ?_, ?_⟩
  · by_cases he : validateErrors schema maxc enf ts = [] <;> simp [he]
  · by_cases he : validateErrors schema maxc enf ts = [] <;> simp [he]
  · intro t ht
    unfold validateErrors
    exact (((sublist_flatMap_of_mem ts (perTicketErrors schema) t ht).trans
      (List.sublist_append_left _ _)).trans
      (List.sublist_append_left _ _)).trans
      (List.sublist_append_left _ _)

/-- Witness for C8: a snapshot whose first ticket fails to parse; the
parse-failure line is in the report, the ticket after it is still checked
(its violations are a sublist of the report), and the exit code is 1. -/
theorem c8_cmd_validate_collects_witness :
    (perTicketErrors trivialSchema (Stored.perr "bad.md" "boom")).Sublist
      (cmd_validate trivialSchema 2 false
        [Stored.perr "bad.md" "boom",
         Stored.ok "T-000001.md" { emptyMeta with id := some "T-000001", status := some "claimed" }]).1 ∧
    (perTicketErrors trivialSchema
        (Stored.ok "T-000001.md" { emptyMeta with id := some "T-000001", status := some "claimed" })).Sublist
      (cmd_validate trivialSchema 2 false
        [Stored.perr "bad.md" "boom",
         Stored.ok "T-000001.md" { emptyMeta with id := some "T-000001", status := some "claimed" }]).1 ∧
    (cmd_validate trivialSchema 2 false
        [Stored.perr "bad.md" "boom",
         Stored.ok "T-000001.md" { emptyMeta with id := some "T-000001", status := some "claimed" }]).2 = 1 :=
  ⟨(c8_cmd_validate_collects trivialSchema 2 false _).2.2 _ (by decide),
   (c8_cmd_validate_collects trivialSchema 2 false _).2.2 _ (by decide),
   (c8_cmd_validate_collects trivialSchema 2 false _).2.1.mpr (by decide)⟩

/-- C10: `validate_wip_limit` counts only claimed tickets with a non-null,
non-empty owner (`specWipCount` states that counting rule), and reports an
owner (with its count in the WIP error line) iff that owner's count strictly
exceeds the (nonnegative) maximum; a claimed ticket with a null owner
contributes to no count and alone never triggers a violation, whatever the
maximum. -/
theorem c10_validate_wip_limit_iff (ts : List Stored) (maxc : Int) (o : String)
    (hmax : 0 ≤ maxc) :
    ((∃ c, (o, c) ∈ wipCounts ts ∧ maxc < (c : Int) ∧
        wipMsg o c maxc ∈ validate_wip_limit ts maxc) ↔
      maxc < (specWipCount ts o : Int)) ∧
    (∀ maxc' : Int, ∀ path : String, ∀ m : Meta, m.status = some "claimed" →
      (m.owner = none ∨ m.owner = some none) →
      validate_wip_limit [Stored.ok path m] maxc' = []) := by
  constructor
  · constructor
    · rintro ⟨c, hmem, hgt, _⟩
      have hl : List.lookup o (wipCounts ts) = some c :=
        lookup_of_mem_nodup (nodup_keys_wipCounts ts) hmem
      rw [lookup_wipCounts] at hl
      by_cases hz : specWipCount ts o = 0
      · rw [if_pos hz] at hl
        cases hl
      · rw [if_neg hz] at hl
        obtain rfl := Option.some.inj hl
        exact hgt
    · intro hgt
      have hz : specWipCount ts o ≠ 0 := by omega
      have hl : List.lookup o (wipCounts ts) = some (specWipCount ts o) := by
        rw [lookup_wipCounts, if_neg hz]
      have hmem : (o, specWipCount ts o) ∈ wipCounts ts := mem_of_lookup hl
      refine ⟨specWipCount ts o, hmem, hgt, ?_⟩
      refine List.mem_filterMap.mpr ⟨(o, specWipCount ts o), hmem, ?_⟩
      rw [if_pos hgt]
  · intro maxc' path m hst howner
    have hcounts : wipCounts [Stored.ok path m] = [] := by
      show wipStep [] (Stored.ok path m) = []
      simp only [wipStep]
      rcases howner with h | h <;> simp [h]
    simp [validate_wip_limit, hcounts]

/-- Witness for C10: an owner with three claimed tickets against a maximum
of two is reported with count three; a single claimed null-owner ticket
triggers nothing even with maximum zero. -/
theorem c10_validate_wip_limit_iff_witness :
    (∃ c, ("alice", c) ∈
        wipCounts [Stored.ok "T-000001.md" { emptyMeta with status := some "claimed", owner := some (some "alice") },
          Stored.ok "T-000002.md" { emptyMeta with status := some "claimed", owner := some (some "alice") },
          Stored.ok "T-000003.md" { emptyMeta with status := some "claimed", owner := some (some "alice") }] ∧
        (2 : Int) < (c : Int) ∧
        wipMsg "alice" c 2 ∈ validate_wip_limit
          [Stored.ok "T-000001.md" { emptyMeta with status := some "claimed", owner := some (some "alice") },
           Stored.ok "T-000002.md" { emptyMeta with status := some "claimed", owner := some (some "alice") },
           Stored.ok "T-000003.md" { emptyMeta with status := some "claimed", owner := some (some "alice") }] 2) ∧
    validate_wip_limit [Stored.ok "T-000004.md" { emptyMeta with status := some "claimed", owner := some none }] 0 = [] :=
  ⟨(c10_validate_wip_limit_iff _ 2 "alice" (by decide)).1.mpr (by decide),
   (c10_validate_wip_limit_iff [] 0 "x" (by decide)).2 0 "T-000004.md"
     { emptyMeta with status := some "claimed", owner := some none } rfl (Or.inr rfl)⟩


/-! ## Concrete snapshots used by witnesses and counterexamples -/

/-- A parse-ok ready ticket with no title (schema-invalid under a schema
requiring `title`). -/
def mReadyBare : Meta := { emptyMeta with id := some "T-000001", status := some "ready" }

/-- A ready ticket depending on `T-000001`. -/
def mDep2 : Meta :=
  { emptyMeta with
    id := some "T-000002", status := some "ready", depends_on := some ["T-000001"] }

/-- The scenario-A snapshot: `T-000002` depends on `T-000001`, which is
still "ready". -/
def tsDep : List Stored :=
  [Stored.ok "T-000001.md" mReadyBare, Stored.ok "T-000002.md" mDep2]

/-- A schema requiring a title, under which a parse-ok ticket without a
`title` key fails validation. -/
def schemaTitle : Schema := { required := ["title"], properties := [] }

/-- A claimed ticket of owner "alice" without the required title. -/
def mClaimedBare : Meta :=
  { emptyMeta with
    id := some "T-000001", status := some "claimed", owner := some (some "alice") }

/-- A schema-valid claimed ticket of owner "alice". -/
def mClaimedTitled : Meta :=
  { emptyMeta with
    id := some "T-000002", title := some "B", status := some "claimed",
    owner := some (some "alice") }

/-- A schema-valid ready ticket. -/
def mReadyTitled : Meta :=
  { emptyMeta with id := some "T-000003", title := some "C", status := some "ready" }

/-- The C3 counterexample snapshot: "alice" holds two claimed tickets, one
of them schema-invalid. -/
def tsCap : List Stored :=
  [Stored.ok "T-000001.md" mClaimedBare, Stored.ok "T-000002.md" mClaimedTitled,
   Stored.ok "T-000003.md" mReadyTitled]

/-- A ready ticket whose only dependency does not exist. -/
def mUnmet : Meta :=
  { emptyMeta with
    id := some "T-000002", status := some "ready", depends_on := some ["T-000099"] }

def tsUnmet : List Stored := [Stored.ok "T-000002.md" mUnmet]

/-- A p0 ready ticket, scoring 330 with no age bonus. -/
def mPickA : Meta :=
  { emptyMeta with id := some "T-000001", status := some "ready", priority := some "p0" }

/-- A default-priority ready ticket, scoring 130 with no age bonus. -/
def mPickB : Meta := { emptyMeta with id := some "T-000002", status := some "ready" }

def tsPick : List Stored :=
  [Stored.ok "T-000001.md" mPickA, Stored.ok "T-000002.md" mPickB]

/-- C4: for a stored ticket in status "ready" one of whose dependencies
exists in the id map but is not "done", `cmd_claim` without overrides
refuses with the unmet-dependency message (exit code 2; the refusal outcome
carries no write, so the ticket is unchanged); with `ignore_deps` it
succeeds, writing status "claimed", the given owner, the branch defaulted
from title and id (the branch argument being empty), and the refreshed
`updated` stamp. -/
theorem c4_claim_dependency_gate (today tid owner dep : String) (ts : List Stored)
    (path : String) (m0 d : Meta)
    (hvalid : isValidId tid = true)
    (hfind : findStored ts (tid ++ ".md") = some (Stored.ok path m0))
    (hready : (normalize_meta m0).status = some "ready")
    (hdep : dep ∈ (normalize_meta m0).depends_on.getD [])
    (hlook : List.lookup (some dep) (claimMap ts) = some d)
    (hnotdone : d.status ≠ some "done") :
    (cmd_claim today ⟨tid, owner, "", false, false⟩ ts =
        ClaimResult.refuse
          (claimDepsMsg (deps_satisfied (normalize_meta m0) (claimMap ts)).2) ∧
      (cmd_claim today ⟨tid, owner, "", false, false⟩ ts).exitCode = 2) ∧
    cmd_claim today ⟨tid, owner, "", true, false⟩ ts =
      ClaimResult.claimed path
        { normalize_meta m0 with
          status := some "claimed", owner := some (some owner),
          branch := some (some (default_branch (normalize_meta m0))),
          updated := some today } := by
  have hsat := deps_unsat_of_mem hdep hlook hnotdone
  have h1 : cmd_claim today ⟨tid, owner, "", false, false⟩ ts =
      ClaimResult.refuse
        (claimDepsMsg (deps_satisfied (normalize_meta m0) (claimMap ts)).2) := by
    simp [cmd_claim, hvalid, hfind, hready, hsat.1]
  have h2 : cmd_claim today ⟨tid, owner, "", true, false⟩ ts =
      ClaimResult.claimed path
        { normalize_meta m0 with
          status := some "claimed", owner := some (some owner),
          branch := some (some (default_branch (normalize_meta m0))),
          updated := some today } := by
    simp [cmd_claim, hvalid, hfind, hready, hsat.1]
  refine ⟨⟨h1, ?_⟩, h2⟩
  rw [h1]
  rfl

/-- Witness for C4: the end-to-end scenario of the specification,
`T-000002` depending on `T-000001` which is still "ready". -/
theorem c4_claim_dependency_gate_witness :
    cmd_claim "2026-10-12" ⟨"T-000002", "ownerX", "", false, false⟩ tsDep =
      ClaimResult.refuse
        (claimDepsMsg (deps_satisfied (normalize_meta mDep2) (claimMap tsDep)).2) ∧
    cmd_claim "2026-10-12" ⟨"T-000002", "ownerX", "", true, false⟩ tsDep =
      ClaimResult.claimed "T-000002.md"
        { normalize_meta mDep2 with
          status := some "claimed", owner := some (some "ownerX"),
          branch := some (some (default_branch (normalize_meta mDep2))),
          updated := some "2026-10-12" } := by
  have h := c4_claim_dependency_gate "2026-10-12" "T-000002" "ownerX" "T-000001" tsDep
    "T-000002.md" mDep2 (normalize_meta mReadyBare)
    (by decide) (by decide) (by decide) (by decide) (by decide) (by decide)
  exact ⟨h.1.1, h.2⟩

/-- C3 amended: the capacity gate of `cmd_pick` counts the requesting
owner's claimed tickets among the schema-valid id-map entries
(`pickClaimedCount`); when that count reaches `max_claimed_per_owner`, pick
refuses with the capacity outcome (exit code 2) before filtering or scoring:
the refusal holds for every combination of filters and for `ignore_deps`,
and the capacity outcome carries no write. `cmd_pick` has no force flag, so
no override exists. -/
theorem c3_pick_capacity_gate (fromiso : String → Option Int) (todayOrd : Int)
    (todayStr : String) (schema : Schema) (args : PickArgs) (ts : List Stored)
    (h : args.max_claimed_per_owner ≤ (pickClaimedCount schema ts args.owner : Int)) :
    cmd_pick fromiso todayOrd todayStr schema args ts =
      PickResult.capacity (capacityMsg args.owner (pickClaimedCount schema ts args.owner)
        args.max_claimed_per_owner) ∧
    (cmd_pick fromiso todayOrd todayStr schema args ts).exitCode = 2 := by
  have h1 : cmd_pick fromiso todayOrd todayStr schema args ts =
      PickResult.capacity (capacityMsg args.owner (pickClaimedCount schema ts args.owner)
        args.max_claimed_per_owner) := by
    unfold cmd_pick
    rw [if_pos h]
  refine ⟨h1, ?_⟩
  rw [h1]
  rfl

/-- Witness for C3 (amended): an owner already holding two schema-valid
claimed tickets is refused by pick at the default maximum of two. -/
theorem c3_pick_capacity_gate_witness :
    cmd_pick (fun _ => none) 0 "2026-10-12" trivialSchema
        ⟨"alice", [], [], none, none, "", false, 2⟩
        [Stored.ok "T-000001.md" mClaimedBare, Stored.ok "T-000002.md" mClaimedTitled] =
      PickResult.capacity (capacityMsg "alice"
        (pickClaimedCount trivialSchema
          [Stored.ok "T-000001.md" mClaimedBare, Stored.ok "T-000002.md" mClaimedTitled]
          "alice") 2) :=
  (c3_pick_capacity_gate (fun _ => none) 0 "2026-10-12" trivialSchema
    ⟨"alice", [], [], none, none, "", false, 2⟩
    [Stored.ok "T-000001.md" mClaimedBare, Stored.ok "T-000002.md" mClaimedTitled]
    (by decide)).1

/-- The claim-side reading of the C3 capacity precondition: the number of
parse-ok snapshot tickets with status "claimed" owned by the given owner,
with no schema filtering. -/
def specClaimedCount (ts : List Stored) (owner : String) : Nat :=
  ts.countP (fun t =>
    match t with
    | Stored.perr _ _ => false
    | Stored.ok _ m => m.status == some "claimed" && m.owner == some (some owner))

/-- Counterexample to C3 as stated: owner "alice" holds two claimed tickets
in the snapshot (`specClaimedCount` = 2 = the requested maximum), yet pick
does not refuse: one claimed ticket lacks the required title, the gate
counts only schema-valid tickets, and a ticket is selected and claimed
(exit 0, a mutation). -/
theorem c3_counterexample :
    specClaimedCount tsCap "alice" = 2 ∧
    (2 : Int) ≤ (specClaimedCount tsCap "alice" : Int) ∧
    (∃ nm, cmd_pick (fun _ => none) 0 "2026-10-12" schemaTitle
        ⟨"alice", [], [], none, none, "wb", false, 2⟩ tsCap =
      PickResult.picked (some "T-000003") 130 "wb" "T-000003.md" nm ∧
      nm.status = some "claimed") ∧
    (cmd_pick (fun _ => none) 0 "2026-10-12" schemaTitle
        ⟨"alice", [], [], none, none, "wb", false, 2⟩ tsCap).exitCode = 0 :=
  ⟨by decide, by decide, ⟨_, rfl, rfl⟩, rfl⟩

/-- C1 amended: tickets failing schema validation are excluded from the
id-to-metadata dependency map of `cmd_pick` — every map entry is the
normalization of a parse-ok snapshot ticket that passes schema validation,
keyed by its id — but they are not excluded from the candidate pool: the
accompanying counterexample shows a schema-invalid ready ticket being
selected. -/
theorem c1_pick_map_excludes_schema_invalid (schema : Schema) (ts : List Stored)
    (k : Option String) (m : Meta) (h : (k, m) ∈ pickIdToMeta schema ts) :
    validate_against_schema m schema = [] ∧
      ∃ path m0, Stored.ok path m0 ∈ ts ∧ m = normalize_meta m0 ∧
        k = (normalize_meta m0).id :=
  mem_pickIdToMeta h

/-- Witness for C1 (amended) at a concrete map entry. -/
theorem c1_pick_map_excludes_schema_invalid_witness :
    validate_against_schema (normalize_meta mReadyTitled) schemaTitle = [] ∧
      ∃ path m0,
        Stored.ok path m0 ∈
          [Stored.ok "T-000001.md" mReadyBare, Stored.ok "T-000003.md" mReadyTitled] ∧
        normalize_meta mReadyTitled = normalize_meta m0 ∧
        (some "T-000003" : Option String) = (normalize_meta m0).id :=
  c1_pick_map_excludes_schema_invalid schemaTitle
    [Stored.ok "T-000001.md" mReadyBare, Stored.ok "T-000003.md" mReadyTitled]
    (some "T-000003") (normalize_meta mReadyTitled) (by decide)

/-- Counterexample to C1 as stated: a parse-ok "ready" ticket with a schema
violation (missing required title) is nevertheless selected and claimed by
pick — the candidate loop never consults the schema. -/
theorem c1_counterexample :
    validate_against_schema (normalize_meta mReadyBare) schemaTitle ≠ [] ∧
    (normalize_meta mReadyBare).status = some "ready" ∧
    (∃ nm, cmd_pick (fun _ => none) 0 "2026-10-12" schemaTitle
        ⟨"agent-1", [], [], none, none, "nb", false, 2⟩
        [Stored.ok "T-000001.md" mReadyBare] =
      PickResult.picked (some "T-000001") 130 "nb" "T-000001.md" nm ∧
      nm.status = some "claimed" ∧ nm.owner = some (some "agent-1")) :=
  ⟨by decide, rfl, ⟨_, rfl, rfl, rfl⟩⟩

/-- C9: with `ignore_deps`, pick selects and claims a ticket whose
dependencies are not all "done", and the sentinel score -1e9 is recorded
both in the pick output and on the claimed ticket. -/
theorem c9_pick_sentinel_reachable :
    (deps_satisfied (normalize_meta mUnmet) (pickIdToMeta trivialSchema tsUnmet)).1
      = false ∧
    (∃ nm, cmd_pick (fun _ => none) 0 "2026-10-12" trivialSchema
        ⟨"agent-1", [], [], none, none, "wip", true, 2⟩ tsUnmet =
      PickResult.picked (some "T-000002") (-1000000000) "wip" "T-000002.md" nm ∧
      nm.score = some (-1000000000) ∧ nm.status = some "claimed" ∧
      nm.owner = some (some "agent-1")) :=
  ⟨by decide, ⟨_, rfl, rfl, rfl, rfl⟩⟩

/-- C2: the candidate ordering of pick — maximum score first, ties by
smallest `updated`, further ties by smallest id — is a strict total order on
candidates with pairwise-distinct present ids (`candLt` is exactly that
ordering, first conjunct); pick is a pure function of the snapshot and
filters, so repeated invocations agree (fourth conjunct, definitional in
this embedding); and whenever pick claims a ticket, the claimed ticket is a
candidate that sorts strictly before every other candidate. -/
theorem c2_pick_deterministic_total_order (fromiso : String → Option Int) (todayOrd : Int)
    (todayStr : String) (schema : Schema) (args : PickArgs) (ts : List Stored)
    (hpresent : ∀ a ∈ candidatesOf fromiso todayOrd schema args ts, a.id ≠ none)
    (hids : ∀ a ∈ candidatesOf fromiso todayOrd schema args ts,
        ∀ b ∈ candidatesOf fromiso todayOrd schema args ts, a ≠ b → a.id ≠ b.id) :
    (∀ a b : Cand, candLt a b ↔ (b.score < a.score ∨ (a.score = b.score ∧
        (strLt a.updated b.updated ∨ (a.updated = b.updated ∧ optIdLt a.id b.id))))) ∧
    (∀ a b c : Cand, candLt a b → candLt b c → candLt a c) ∧
    (∀ a ∈ candidatesOf fromiso todayOrd schema args ts,
      ∀ b ∈ candidatesOf fromiso todayOrd schema args ts, a ≠ b →
        (candLt a b ∨ candLt b a) ∧ ¬(candLt a b ∧ candLt b a)) ∧
    cmd_pick fromiso todayOrd todayStr schema args ts =
      cmd_pick fromiso todayOrd todayStr schema args ts ∧
    (∀ tid sc br path nm,
      cmd_pick fromiso todayOrd todayStr schema args ts =
        PickResult.picked tid sc br path nm →
      ∃ c ∈ candidatesOf fromiso todayOrd schema args ts,
        tid = c.id ∧ sc = c.score ∧ path = c.path ∧
        ∀ b ∈ candidatesOf fromiso todayOrd schema args ts, b ≠ c → candLt c b) := by
  refine ⟨fun a b => Iff.rfl, fun a b c => candLt_trans, ?_, rfl, ?_⟩
  · intro a ha b hb hne
    have hidne := hids a ha b hb hne
    rcases candLt_trichotomy a b with ⟨_, _, h3⟩ | h | h
    · exact absurd h3 hidne
    · exact ⟨Or.inl h, fun hc => candLt_asymm hc.1 hc.2⟩
    · exact ⟨Or.inr h, fun hc => candLt_asymm hc.1 hc.2⟩
  · intro tid sc br path nm hp
    by_cases hc : args.max_claimed_per_owner ≤ (pickClaimedCount schema ts args.owner : Int)
    · have hcap : cmd_pick fromiso todayOrd todayStr schema args ts =
          PickResult.capacity (capacityMsg args.owner (pickClaimedCount schema ts args.owner)
            args.max_claimed_per_owner) := by
        unfold cmd_pick
        rw [if_pos hc]
      rw [hcap] at hp
      cases hp
    · have hrest : cmd_pick fromiso todayOrd todayStr schema args ts =
          pickSelect fromiso todayOrd todayStr schema args ts := by
        unfold cmd_pick
        rw [if_neg hc]
      rw [hrest] at hp
      unfold pickSelect at hp
      rcases hsel : selectCand (candidatesOf fromiso todayOrd schema args ts) with _ | c
      · rw [hsel] at hp
        cases hp
      · rw [hsel] at hp
        replace hp : pickWinner todayStr args ts c = PickResult.picked tid sc br path nm := hp
        have hspec := selectCand_spec hsel
        unfold pickWinner at hp
        rcases hfind : findStored ts c.path with _ | st
        · rw [hfind] at hp
          cases hp
        · rw [hfind] at hp
          cases st with
          | perr p msg => cases hp
          | ok p m0 =>
              have hpath : p = c.path := by
                have hfind' : ts.find? (fun t =>
                    match t with
                    | Stored.perr pp _ => pp == c.path
                    | Stored.ok pp _ => pp == c.path) = some (Stored.ok p m0) := hfind
                have hpred := List.find?_some hfind'
                have hpred' : (p == c.path) = true := hpred
                exact beq_iff_eq.mp hpred'
              injection hp with e1 e2 e3 e4 e5
              refine ⟨c, hspec.1, e1.symm, e2.symm, by rw [← e4, hpath], ?_⟩
              intro b hb hbc
              rcases candLt_trichotomy c b with ⟨_, _, h3⟩ | h | h
              · exact absurd h3 (hids c hspec.1 b hb (fun he => hbc he.symm))
              · exact h
              · exact absurd h (hspec.2 b hb)

/-- Witness for C2: two ready candidates with distinct scores; the theorem
yields the selected candidate (`T-000001`, score 330) and its strict
domination of the other candidate. -/
theorem c2_pick_deterministic_total_order_witness :
    ∃ c ∈ candidatesOf (fun _ => none) 0 trivialSchema
        ⟨"w", [], [], none, none, "br2", false, 2⟩ tsPick,
      (some "T-000001" : Option String) = c.id ∧ (330 : Int) = c.score ∧
      ("T-000001.md" : String) = c.path ∧
      ∀ b ∈ candidatesOf (fun _ => none) 0 trivialSchema
          ⟨"w", [], [], none, none, "br2", false, 2⟩ tsPick,
        b ≠ c → candLt c b := by
  have h := c2_pick_deterministic_total_order (fun _ => none) 0 "2026-10-12" trivialSchema
    ⟨"w", [], [], none, none, "br2", false, 2⟩ tsPick (by decide) (by decide)
  exact h.2.2.2.2 (some "T-000001") 330 "br2" "T-000001.md" _ rfl

end MuonTickets
